import Mathlib

/-!
Verification development for the okapi-operation repository.

The definitions below are a shallow embedding of the Rust sources:

* `Method`, `Operation`, `PathItem`, `OpenApi` mirror the `http`/`okapi`
  data carried by the crate (only the fields the builder manipulates);
  `okapi`'s `Map` is a `BTreeMap`, embedded as a key-sorted association
  list (`btreeInsert`), while the builder's `IndexMap` of pending
  operations is an insertion-ordered association list (`indexInsert`).
* `Components`, `Components.schema_for`, `Components.add_security_scheme`
  and `Components.okapi_components` embed `src/okapi-operation/src/components.rs`.
* `OpenApiBuilder` with `tryOperation`, `operation`, `addOperation`,
  `try_add_path` and `build` embeds `src/okapi-operation/src/builder.rs`.
  Rust operation generators are `fn(&mut Components, &BuilderOptions) ->
  Result<Operation, Error>` pointers; they are embedded as Lean functions
  returning the operation together with the updated components.  A Rust
  panic is embedded as `Except.error` carrying the panic message.
-/

inductive Method where
  | get
  | head
  | delete
  | options
  | patch
  | post
  | put
  | trace
  | custom (s : String)
deriving DecidableEq

/-- `http::Method::as_str` (the byte string used by the builder's sort). -/
def Method.toStr : Method → String
  | .get => "GET"
  | .head => "HEAD"
  | .delete => "DELETE"
  | .options => "OPTIONS"
  | .patch => "PATCH"
  | .post => "POST"
  | .put => "PUT"
  | .trace => "TRACE"
  | .custom s => s

/-- The fields of `okapi::openapi3::Operation` that the builder inspects. -/
structure Operation where
  operation_id : Option String := none
  summary : Option String := none
  tags : List String := []
deriving DecidableEq

/-- `okapi::openapi3::PathItem`: one optional operation per HTTP method. -/
structure PathItem where
  get : Option Operation := none
  head : Option Operation := none
  delete : Option Operation := none
  options : Option Operation := none
  patch : Option Operation := none
  post : Option Operation := none
  put : Option Operation := none
  trace : Option Operation := none
deriving DecidableEq

instance {ε α : Type} [DecidableEq ε] [DecidableEq α] : DecidableEq (Except ε α)
  | .error e, .error e' =>
    if h : e = e' then .isTrue (by rw [h]) else .isFalse (by intro hc; cases hc; exact h rfl)
  | .error _, .ok _ => .isFalse (by intro h; cases h)
  | .ok _, .error _ => .isFalse (by intro h; cases h)
  | .ok a, .ok b =>
    if h : a = b then .isTrue (by rw [h]) else .isFalse (by intro hc; cases hc; exact h rfl)

/-- First-match association-list lookup. -/
def alookup {κ β : Type} [DecidableEq κ] : List (κ × β) → κ → Option β
  | [], _ => none
  | (k, v) :: rest, key => if k = key then some v else alookup rest key

/-- Strict byte-wise (equivalently code-point-wise, since UTF-8 preserves
code-point order) comparison of character lists, as Rust's `str` `Ord`. -/
def charListLt : List Char → List Char → Bool
  | [], [] => false
  | [], _ :: _ => true
  | _ :: _, [] => false
  | a :: as, b :: bs =>
    if a < b then true
    else if b < a then false
    else charListLt as bs

/-- Reflexive byte-wise comparison of character lists. -/
def charListLe : List Char → List Char → Bool
  | [], _ => true
  | _ :: _, [] => false
  | a :: as, b :: bs =>
    if a < b then true
    else if b < a then false
    else charListLe as bs

/-- Rust's `String`/`str` strict lexicographic order. -/
def strLt (a b : String) : Bool := charListLt a.data b.data

/-- Rust's `String`/`str` reflexive lexicographic order. -/
def strLe (a b : String) : Bool := charListLe a.data b.data

/-- Insertion into a key-sorted association list, the embedding of
`BTreeMap::insert` (replaces the value of an existing key). -/
def btreeInsert {β : Type} : List (String × β) → String → β → List (String × β)
  | [], k, v => [(k, v)]
  | (k', v') :: rest, k, v =>
    if strLt k k' then (k, v) :: (k', v') :: rest
    else if k = k' then (k, v) :: rest
    else (k', v') :: btreeInsert rest k v

/-- `IndexMap::insert`: replace in place when the key exists (returning the
old value), otherwise append at the end. -/
def indexInsert {κ β : Type} [DecidableEq κ] :
    List (κ × β) → κ → β → Option β × List (κ × β)
  | [], k, v => (none, [(k, v)])
  | (k', v') :: rest, k, v =>
    if k' = k then (some v', (k', v) :: rest)
    else
      let r := indexInsert rest k v
      (r.1, (k', v') :: r.2)

/-- Schema objects and security schemes are treated as opaque serialized
values; only their identity matters to the assembly logic. -/
abbrev SchemaObject := String

abbrev SecurityScheme := String

/-- `okapi::openapi3::Components` (the parts the crate manipulates). -/
structure OkapiComponents where
  schemas : List (String × SchemaObject) := []
  security_schemes : List (String × SecurityScheme) := []
deriving DecidableEq

/-- `Components` from `components.rs`: a schemars `SchemaGenerator` (its
`definitions` map) plus the okapi components being accumulated. -/
structure Components where
  definitions : List (String × SchemaObject) := []
  components : OkapiComponents := {}
deriving DecidableEq

/-- `Components::schema_for::<T>()`: registers the type's schema in the
generator's definitions on first use and returns a reference to it;
subsequent calls for the same type (here: the same canonical name) return
the identical reference without a second registration. -/
def Components.schema_for (c : Components) (name : String) (schema : SchemaObject) :
    SchemaObject × Components :=
  let reference := "#/components/schemas/" ++ name
  match alookup c.definitions name with
  | some _ => (reference, c)
  | none => (reference, { c with definitions := btreeInsert c.definitions name schema })

/-- `Components::add_security_scheme`: plain map insertion. -/
def Components.add_security_scheme (c : Components) (name : String) (sec : SecurityScheme) :
    Components :=
  { c with
    components :=
      { c.components with
        security_schemes := btreeInsert c.components.security_schemes name sec } }

/-- The loop body of `Components::okapi_components`: fold the generator's
definitions into a clone of the accumulated components, failing when a
definition name is already present among the schemas. -/
def okapiComponentsFold : OkapiComponents → List (String × SchemaObject) →
    Except String OkapiComponents
  | acc, [] => .ok acc
  | acc, (name, schema) :: rest =>
    if (alookup acc.schemas name).isSome then
      .error ("Multiple schemas found for \x27" ++ name ++ "\x27")
    else
      okapiComponentsFold { acc with schemas := btreeInsert acc.schemas name schema } rest

/-- `Components::okapi_components` from `components.rs`. -/
def Components.okapi_components (c : Components) : Except String OkapiComponents :=
  okapiComponentsFold c.components c.definitions

/-- `BuilderOptions` from `builder.rs`. -/
structure BuilderOptions where
  infer_operation_id : Bool := false
deriving DecidableEq

/-- `OperationGenerator`: `fn(&mut Components, &BuilderOptions) ->
Result<Operation, Error>`; the `&mut` argument is embedded by returning the
updated components alongside the operation. -/
abbrev OperationGenerator :=
  Components → BuilderOptions → Except String (Operation × Components)

/-- The fields of `okapi::openapi3::OpenApi` the builder populates. -/
structure OpenApi where
  openapi : String := "3.0.0"
  title : String := ""
  version : String := ""
  description : Option String := none
  paths : List (String × PathItem) := []
  components : Option OkapiComponents := none
  security : List (String × List String) := []
deriving DecidableEq

/-- `OpenApiBuilder` from `builder.rs`. -/
structure OpenApiBuilder where
  spec : OpenApi := {}
  components : Components := {}
  operations : List ((String × Method) × OperationGenerator) := []
  known_operation_ids : List String := []
  builder_options : BuilderOptions := {}

/-- `OpenApiBuilder::new(title, version)`. -/
def OpenApiBuilder.new (title version : String) : OpenApiBuilder :=
  { spec := { title := title, version := version } }

/-- `OpenApiBuilder::try_operation`: insert the pending generator, then
report an error when the `(path, method)` pair was already present. -/
def OpenApiBuilder.tryOperation (b : OpenApiBuilder) (path : String) (method : Method)
    (generator : OperationGenerator) : Except String Unit × OpenApiBuilder :=
  let r := indexInsert b.operations (path, method) generator
  let b' := { b with operations := r.2 }
  match r.1 with
  | some _ =>
    (.error (method.toStr ++ " " ++ path ++ " is already present in specification"), b')
  | none => (.ok (), b')

/-- `OpenApiBuilder::operation`: `try_operation` with the error discarded. -/
def OpenApiBuilder.operation (b : OpenApiBuilder) (path : String) (method : Method)
    (generator : OperationGenerator) : OpenApiBuilder :=
  (b.tryOperation path method generator).2

/-- Store an operation under its method's slot of a path item; `none` for a
method outside the fixed enumerated set. -/
def PathItem.set (item : PathItem) (method : Method) (op : Operation) : Option PathItem :=
  match method with
  | .delete => some { item with delete := some op }
  | .get => some { item with get := some op }
  | .head => some { item with head := some op }
  | .options => some { item with options := some op }
  | .patch => some { item with patch := some op }
  | .post => some { item with post := some op }
  | .put => some { item with put := some op }
  | .trace => some { item with trace := some op }
  | .custom _ => none

/-- The tail of `OpenApiBuilder::add_operation`: `spec.paths.entry(path)
.or_default()` followed by the method dispatch (the default entry is
created even when the method turns out to be unsupported). -/
def OpenApiBuilder.addOperationPlace (b : OpenApiBuilder) (path : String) (method : Method)
    (op : Operation) : Except String Unit × OpenApiBuilder :=
  let cur := (alookup b.spec.paths path).getD {}
  match cur.set method op with
  | some item =>
    (.ok (), { b with spec := { b.spec with paths := btreeInsert b.spec.paths path item } })
  | none =>
    (.error ("Unsupported method " ++ method.toStr),
     { b with spec := { b.spec with paths := btreeInsert b.spec.paths path cur } })

/-- `OpenApiBuilder::add_operation`: runs the generator immediately, checks
the operation id against the running id set, then writes the operation into
`spec.paths`. -/
def OpenApiBuilder.addOperation (b : OpenApiBuilder) (path : String) (method : Method)
    (generator : OperationGenerator) : Except String Unit × OpenApiBuilder :=
  match generator b.components b.builder_options with
  | .error e => (.error e, b)
  | .ok (operation_schema, comps) =>
    let b₁ := { b with components := comps }
    match operation_schema.operation_id with
    | some oid =>
      if oid ∈ b₁.known_operation_ids then
        (.error ("Found duplicate operation_id " ++ oid ++ "."), b₁)
      else
        OpenApiBuilder.addOperationPlace
          { b₁ with known_operation_ids := b₁.known_operation_ids ++ [oid] }
          path method operation_schema
    | none => OpenApiBuilder.addOperationPlace b₁ path method operation_schema

/-- `try_add_path` from `builder.rs` (the build-time placement helper; note
it performs no operation-id bookkeeping). -/
def try_add_path (spec : OpenApi) (comps : Components) (opts : BuilderOptions)
    (path : String) (method : Method) (generator : OperationGenerator) :
    Except String Unit × OpenApi × Components :=
  match generator comps opts with
  | .error e => (.error e, spec, comps)
  | .ok (operation_schema, comps') =>
    let cur := (alookup spec.paths path).getD {}
    match cur.set method operation_schema with
    | some item => (.ok (), { spec with paths := btreeInsert spec.paths path item }, comps')
    | none =>
      (.error ("Unsupported method " ++ method.toStr ++ " (at " ++ path ++ ")"),
       { spec with paths := btreeInsert spec.paths path cur }, comps')

/-- The build loop: invoke each pending generator in list order, wrapping a
failure with the `(method, path)` context. -/
def runOps (opts : BuilderOptions) :
    OpenApi → Components → List ((String × Method) × OperationGenerator) →
    Except String OpenApi × Components
  | spec, comps, [] => (.ok spec, comps)
  | spec, comps, ((path, method), generator) :: rest =>
    match try_add_path spec comps opts path method generator with
    | (.error e, _, comps') =>
      (.error ("Failed to add " ++ method.toStr ++ " " ++ path ++ ": " ++ e), comps')
    | (.ok _, spec', comps') => runOps opts spec' comps' rest

/-- Sort key used by `build`: `(&path, method.as_str())`. -/
def entryKey (e : (String × Method) × OperationGenerator) : String × String :=
  (e.1.1, e.1.2.toStr)

/-- Lexicographic order on `(path, method string)` keys: Rust's derived
`Ord` on tuples of strings. -/
def keyLE (x y : String × String) : Prop :=
  strLt x.1 y.1 = true ∨ (x.1 = y.1 ∧ strLe x.2 y.2 = true)

instance (x y : String × String) : Decidable (keyLE x y) :=
  inferInstanceAs (Decidable (strLt x.1 y.1 = true ∨ (x.1 = y.1 ∧ strLe x.2 y.2 = true)))

/-- The comparator passed to `IndexMap::sort_by` in `build`. -/
def entryLE (a b : (String × Method) × OperationGenerator) : Prop :=
  keyLE (entryKey a) (entryKey b)

instance (a b : (String × Method) × OperationGenerator) : Decidable (entryLE a b) :=
  inferInstanceAs (Decidable (keyLE (entryKey a) (entryKey b)))

/-- `OpenApiBuilder::build`: sort the pending operations in place, run them
in sorted order against the shared components, then finalize the
components into the document.  The final builder state is returned
alongside the result, mirroring `&mut self`. -/
def OpenApiBuilder.build (b : OpenApiBuilder) : Except String OpenApi × OpenApiBuilder :=
  let ops := List.insertionSort entryLE b.operations
  let r := runOps b.builder_options b.spec b.components ops
  let b' := { b with operations := ops, components := r.2 }
  match r.1 with
  | .error e => (.error e, b')
  | .ok spec =>
    match b'.components.okapi_components with
    | .error e => (.error e, b')
    | .ok oc => (.ok { spec with components := some oc }, b')

/-! ### Order lemmas for the build-time sort -/

theorem charListLt_irrefl : ∀ x : List Char, charListLt x x = false
  | [] => rfl
  | a :: as => by simp [charListLt, charListLt_irrefl as]

theorem charListLt_asymm :
    ∀ x y : List Char, charListLt x y = true → charListLt y x = true → False
  | [], [], h₁, _ => by simp [charListLt] at h₁
  | [], _ :: _, _, h₂ => by simp [charListLt] at h₂
  | _ :: _, [], h₁, _ => by simp [charListLt] at h₁
  | a :: as, b :: bs, h₁, h₂ => by
    simp only [charListLt] at h₁ h₂
    rcases lt_trichotomy a b with h | h | h
    · rw [if_neg (asymm h), if_pos h] at h₂
      exact Bool.false_ne_true h₂
    · subst h
      simp only [if_neg (lt_irrefl a)] at h₁ h₂
      exact charListLt_asymm as bs h₁ h₂
    · rw [if_neg (asymm h), if_pos h] at h₁
      exact Bool.false_ne_true h₁

theorem charListLt_trans :
    ∀ x y z : List Char, charListLt x y = true → charListLt y z = true → charListLt x z = true
  | [], [], _, h₁, _ => by simp [charListLt] at h₁
  | [], _ :: _, [], _, h₂ => by simp [charListLt] at h₂
  | [], _ :: _, _ :: _, _, _ => rfl
  | _ :: _, [], _, h₁, _ => by simp [charListLt] at h₁
  | _ :: _, _ :: _, [], _, h₂ => by simp [charListLt] at h₂
  | a :: as, b :: bs, c :: cs, h₁, h₂ => by
    simp only [charListLt] at h₁ h₂ ⊢
    rcases lt_trichotomy a b with hab | hab | hab
    · rcases lt_trichotomy b c with hbc | hbc | hbc
      · rw [if_pos (lt_trans hab hbc)]
      · subst hbc; rw [if_pos hab]
      · rw [if_neg (asymm hbc), if_pos hbc] at h₂
        exact absurd h₂ Bool.false_ne_true
    · subst hab
      simp only [if_neg (lt_irrefl a)] at h₁
      rcases lt_trichotomy a c with hac | hac | hac
      · rw [if_pos hac]
      · subst hac
        simp only [if_neg (lt_irrefl a)] at h₂ ⊢
        exact charListLt_trans as bs cs h₁ h₂
      · rw [if_neg (asymm hac), if_pos hac] at h₂
        exact absurd h₂ Bool.false_ne_true
    · rw [if_neg (asymm hab), if_pos hab] at h₁
      exact absurd h₁ Bool.false_ne_true

theorem charListLt_trichotomy :
    ∀ x y : List Char, charListLt x y = true ∨ x = y ∨ charListLt y x = true
  | [], [] => .inr (.inl rfl)
  | [], _ :: _ => .inl rfl
  | _ :: _, [] => .inr (.inr rfl)
  | a :: as, b :: bs => by
    rcases lt_trichotomy a b with h | h | h
    · exact .inl (by simp [charListLt, h])
    · subst h
      rcases charListLt_trichotomy as bs with ht | ht | ht
      · exact .inl (by simp [charListLt, lt_irrefl, ht])
      · exact .inr (.inl (by rw [ht]))
      · exact .inr (.inr (by simp [charListLt, lt_irrefl, ht]))
    · exact .inr (.inr (by simp [charListLt, h]))

theorem charListLe_iff :
    ∀ x y : List Char, charListLe x y = true ↔ (charListLt x y = true ∨ x = y)
  | [], [] => by simp [charListLe, charListLt]
  | [], _ :: _ => by simp [charListLe, charListLt]
  | _ :: _, [] => by simp [charListLe, charListLt]
  | a :: as, b :: bs => by
    simp only [charListLe, charListLt]
    rcases lt_trichotomy a b with h | h | h
    · simp [h]
    · subst h
      rw [if_neg (lt_irrefl a), if_neg (lt_irrefl a)]
      rw [charListLe_iff as bs]
      simp
    · rw [if_neg (asymm h), if_pos h, if_neg (asymm h), if_pos h]
      simp only [Bool.false_eq_true, false_or, false_iff]
      intro hc
      injection hc with hc₁ _
      exact lt_irrefl a (hc₁ ▸ h)

theorem strDataInj {a b : String} (h : a.data = b.data) : a = b :=
  congrArg String.mk h

theorem strLt_asymm {a b : String} (h₁ : strLt a b = true) (h₂ : strLt b a = true) : False :=
  charListLt_asymm a.data b.data h₁ h₂

theorem strLt_trans {a b c : String} (h₁ : strLt a b = true) (h₂ : strLt b c = true) :
    strLt a c = true :=
  charListLt_trans a.data b.data c.data h₁ h₂

theorem strLt_trichotomy (a b : String) : strLt a b = true ∨ a = b ∨ strLt b a = true := by
  rcases charListLt_trichotomy a.data b.data with h | h | h
  · exact .inl h
  · exact .inr (.inl (strDataInj h))
  · exact .inr (.inr h)

theorem strLe_iff {a b : String} : strLe a b = true ↔ (strLt a b = true ∨ a = b) := by
  unfold strLe strLt
  rw [charListLe_iff]
  constructor
  · rintro (h | h)
    · exact .inl h
    · exact .inr (strDataInj h)
  · rintro (h | h)
    · exact .inl h
    · exact .inr (by rw [h])

/-- Strict variant of `keyLE`. -/
def keyLT (x y : String × String) : Prop :=
  strLt x.1 y.1 = true ∨ (x.1 = y.1 ∧ strLt x.2 y.2 = true)

theorem keyLE_total (x y : String × String) : keyLE x y ∨ keyLE y x := by
  rcases strLt_trichotomy x.1 y.1 with h | h | h
  · exact .inl (.inl h)
  · rcases strLt_trichotomy x.2 y.2 with h₂ | h₂ | h₂
    · exact .inl (.inr ⟨h, strLe_iff.mpr (.inl h₂)⟩)
    · exact .inl (.inr ⟨h, strLe_iff.mpr (.inr h₂)⟩)
    · exact .inr (.inr ⟨h.symm, strLe_iff.mpr (.inl h₂)⟩)
  · exact .inr (.inl h)

theorem keyLE_trans {x y z : String × String} (h₁ : keyLE x y) (h₂ : keyLE y z) : keyLE x z := by
  rcases h₁ with h₁ | ⟨h₁e, h₁le⟩
  · rcases h₂ with h₂ | ⟨h₂e, _⟩
    · exact .inl (strLt_trans h₁ h₂)
    · exact .inl (h₂e ▸ h₁)
  · rcases h₂ with h₂ | ⟨h₂e, h₂le⟩
    · exact .inl (h₁e ▸ h₂)
    · refine .inr ⟨h₁e.trans h₂e, ?_⟩
      rcases strLe_iff.mp h₁le with ha | ha
      · rcases strLe_iff.mp h₂le with hb | hb
        · exact strLe_iff.mpr (.inl (strLt_trans ha hb))
        · exact strLe_iff.mpr (.inl (hb ▸ ha))
      · exact ha ▸ h₂le

theorem keyLT_asymm {x y : String × String} (h₁ : keyLT x y) (h₂ : keyLT y x) : False := by
  rcases h₁ with h₁ | ⟨h₁e, h₁lt⟩
  · rcases h₂ with h₂ | ⟨h₂e, _⟩
    · exact strLt_asymm h₁ h₂
    · rw [h₂e] at h₁
      exact strLt_asymm h₁ h₁
  · rcases h₂ with h₂ | ⟨_, h₂lt⟩
    · rw [h₁e] at h₂
      exact strLt_asymm h₂ h₂
    · exact strLt_asymm h₁lt h₂lt

theorem keyLE_lt_of_ne {x y : String × String} (h : keyLE x y) (hne : x ≠ y) : keyLT x y := by
  rcases h with h | ⟨he, hle⟩
  · exact .inl h
  · rcases strLe_iff.mp hle with h₂ | h₂
    · exact .inr ⟨he, h₂⟩
    · exact absurd (Prod.ext he h₂) hne

/-- Entries of the builder's pending-operations map. -/
abbrev BuildEntry := (String × Method) × OperationGenerator

/-- Strict variant of the build comparator. -/
def entryLT (a b : BuildEntry) : Prop :=
  keyLT (entryKey a) (entryKey b)

instance : IsTotal BuildEntry entryLE :=
  ⟨fun a b => keyLE_total (entryKey a) (entryKey b)⟩

instance : IsTrans BuildEntry entryLE :=
  ⟨fun _ _ _ h₁ h₂ => keyLE_trans h₁ h₂⟩

instance : IsAntisymm BuildEntry entryLT :=
  ⟨fun _ _ h₁ h₂ => (keyLT_asymm h₁ h₂).elim⟩

theorem sorted_strict_of_nodup_keys {l : List BuildEntry}
    (hs : List.Sorted entryLE l) (hn : (l.map entryKey).Nodup) :
    List.Sorted entryLT l := by
  have hne : l.Pairwise (fun a b => entryKey a ≠ entryKey b) := List.pairwise_map.mp hn
  exact List.Pairwise.imp₂ (fun a b hle hnekey => keyLE_lt_of_ne hle hnekey) hs hne

theorem sorted_nodup_keys_perm_eq {l₁ l₂ : List BuildEntry}
    (hp : l₁.Perm l₂) (h₁ : List.Sorted entryLE l₁) (h₂ : List.Sorted entryLE l₂)
    (hn : (l₁.map entryKey).Nodup) : l₁ = l₂ := by
  have hn₂ : (l₂.map entryKey).Nodup := (hp.map entryKey).nodup_iff.mp hn
  exact List.eq_of_perm_of_sorted hp (sorted_strict_of_nodup_keys h₁ hn)
    (sorted_strict_of_nodup_keys h₂ hn₂)

/-- The builder state returned by `build`: the sorted pending map and the
components threaded through the generator runs. -/
theorem build_snd (b : OpenApiBuilder) :
    (b.build).2 =
      { b with
        operations := List.insertionSort entryLE b.operations,
        components :=
          (runOps b.builder_options b.spec b.components
            (List.insertionSort entryLE b.operations)).2 } := by
  unfold OpenApiBuilder.build
  cases hr :
      (runOps b.builder_options b.spec b.components
        (List.insertionSort entryLE b.operations)).1 with
  | error e => simp [hr]
  | ok spec =>
    simp only [hr]
    cases hc :
        (Components.okapi_components
          (runOps b.builder_options b.spec b.components
            (List.insertionSort entryLE b.operations)).2) with
    | error e => simp [hc]
    | ok oc => simp [hc]

/-- The constant generator used by the builder's own determinism test
(`ensure_builder_deterministic`): `|_, _| Ok(Operation::default())`. -/
def genDefaultOp : OperationGenerator := fun c _ => .ok ({}, c)

/-- C1: `build()` emits operations sorted by `(path, method)` — byte-wise
on the path, then on the method's name string — independently of
registration order; registering `("/path/1", GET)` then `("/path/0", GET)`
yields a document listing `/path/0` before `/path/1`. -/
theorem build_emits_sorted_by_path_then_method :
    (∀ b : OpenApiBuilder,
        List.Sorted entryLE ((b.build).2.operations)
          ∧ ((b.build).2.operations).Perm b.operations)
    ∧ (∀ b₁ b₂ : OpenApiBuilder, b₁.operations.Perm b₂.operations →
        (b₁.operations.map entryKey).Nodup →
        (b₁.build).2.operations = (b₂.build).2.operations)
    ∧ ((((OpenApiBuilder.new "title" "version").operation "/path/1" .get
          genDefaultOp).operation "/path/0" .get genDefaultOp).build).1
        = .ok { title := "title", version := "version",
                paths := [("/path/0", { get := some {} }), ("/path/1", { get := some {} })],
                components := some {} } := by
  refine ⟨fun b => ?_, fun b₁ b₂ hp hn => ?_, by decide⟩
  · rw [build_snd]
    exact ⟨List.sorted_insertionSort entryLE b.operations,
      List.perm_insertionSort entryLE b.operations⟩
  · rw [build_snd, build_snd]
    have hperm : (List.insertionSort entryLE b₁.operations).Perm
        (List.insertionSort entryLE b₂.operations) :=
      ((List.perm_insertionSort entryLE b₁.operations).trans hp).trans
        (List.perm_insertionSort entryLE b₂.operations).symm
    have hnods : ((List.insertionSort entryLE b₁.operations).map entryKey).Nodup :=
      ((List.perm_insertionSort entryLE b₁.operations).map entryKey).nodup_iff.mpr hn
    exact sorted_nodup_keys_perm_eq hperm
      (List.sorted_insertionSort entryLE b₁.operations)
      (List.sorted_insertionSort entryLE b₂.operations) hnods

/-- Witness for C1: two builders given the same two registrations in
opposite orders sort them identically. -/
theorem build_emits_sorted_by_path_then_method_witness :
    ((((OpenApiBuilder.new "t" "v").operation "/path/1" .get genDefaultOp).operation
        "/path/0" .get genDefaultOp).build).2.operations
      = ((((OpenApiBuilder.new "t" "v").operation "/path/0" .get genDefaultOp).operation
        "/path/1" .get genDefaultOp).build).2.operations := by
  refine build_emits_sorted_by_path_then_method.2.1 _ _ ?_ (by decide)
  exact List.Perm.swap (("/path/0", Method.get), genDefaultOp)
    (("/path/1", Method.get), genDefaultOp) []

/-! ### Repeated builds (C2) -/

/-- `d` contains every registration of `c` (same pre-set schemas). The
`&mut Components` interface offered to generators — `schema_for` and
`add_security_scheme` — can only grow these maps. -/
def Components.Extends (c d : Components) : Prop :=
  (∀ e ∈ c.definitions, e ∈ d.definitions)
    ∧ c.components.schemas = d.components.schemas
    ∧ (∀ e ∈ c.components.security_schemes, e ∈ d.components.security_schemes)

theorem Components.Extends.rfl (c : Components) : c.Extends c :=
  ⟨fun _ h => h, Eq.refl _, fun _ h => h⟩

theorem Components.Extends.trans {a b c : Components}
    (h₁ : a.Extends b) (h₂ : b.Extends c) : a.Extends c :=
  ⟨fun e he => h₂.1 e (h₁.1 e he), h₁.2.1.trans h₂.2.1,
    fun e he => h₂.2.2 e (h₁.2.2 e he)⟩

/-- A generator only ever extends the shared components (true of every
generator expressible through the `Components` API). -/
def GenMono (g : OperationGenerator) : Prop :=
  ∀ c o op c', g c o = .ok (op, c') → c.Extends c'

/-- Once a generator's registrations are present, re-running it returns the
same operation and registers nothing new (the builder's stated assumption
that generators are safely invocable many times). -/
def GenStable (g : OperationGenerator) : Prop :=
  ∀ c o op c', g c o = .ok (op, c') → ∀ d, Components.Extends c' d → g d o = .ok (op, d)

theorem runOps_cons_ok {opts : BuilderOptions} {spec : OpenApi} {comps : Components}
    {path : String} {method : Method} {g : OperationGenerator} {rest : List BuildEntry}
    {op : Operation} {comps' : Components} {item : PathItem}
    (hgen : g comps opts = .ok (op, comps'))
    (hset : PathItem.set ((alookup spec.paths path).getD {}) method op = some item) :
    runOps opts spec comps (((path, method), g) :: rest)
      = runOps opts { spec with paths := btreeInsert spec.paths path item } comps' rest := by
  simp [runOps, try_add_path, hgen, hset]

theorem runOps_cons_generr {opts : BuilderOptions} {spec : OpenApi} {comps : Components}
    {path : String} {method : Method} {g : OperationGenerator} {rest : List BuildEntry}
    {e : String} (hgen : g comps opts = .error e) :
    runOps opts spec comps (((path, method), g) :: rest)
      = (.error ("Failed to add " ++ method.toStr ++ " " ++ path ++ ": " ++ e), comps) := by
  simp [runOps, try_add_path, hgen]

theorem runOps_cons_seterr {opts : BuilderOptions} {spec : OpenApi} {comps : Components}
    {path : String} {method : Method} {g : OperationGenerator} {rest : List BuildEntry}
    {op : Operation} {comps' : Components}
    (hgen : g comps opts = .ok (op, comps'))
    (hset : PathItem.set ((alookup spec.paths path).getD {}) method op = none) :
    runOps opts spec comps (((path, method), g) :: rest)
      = (.error ("Failed to add " ++ method.toStr ++ " " ++ path ++ ": "
          ++ ("Unsupported method " ++ method.toStr ++ " (at " ++ path ++ ")")), comps') := by
  simp [runOps, try_add_path, hgen, hset]

theorem runOps_extends :
    ∀ (es : List BuildEntry) (spec : OpenApi) (comps : Components) (opts : BuilderOptions),
      (∀ e ∈ es, GenMono e.2) →
      Components.Extends comps (runOps opts spec comps es).2
  | [], _, comps, _, _ => Components.Extends.rfl comps
  | ((path, method), g) :: rest, spec, comps, opts, hm => by
    have hg : GenMono g := hm _ (List.mem_cons_self _ _)
    have hrest : ∀ e ∈ rest, GenMono e.2 := fun e he => hm e (List.mem_cons_of_mem _ he)
    cases hgen : g comps opts with
    | error e =>
      rw [runOps_cons_generr hgen]
      exact Components.Extends.rfl comps
    | ok pr =>
      obtain ⟨op, comps'⟩ := pr
      have hext : comps.Extends comps' := hg _ _ _ _ hgen
      cases hset : PathItem.set ((alookup spec.paths path).getD {}) method op with
      | some item =>
        rw [runOps_cons_ok hgen hset]
        exact hext.trans (runOps_extends rest _ comps' opts hrest)
      | none =>
        rw [runOps_cons_seterr hgen hset]
        exact hext

theorem runOps_fixpoint :
    ∀ (es : List BuildEntry) (spec : OpenApi) (comps : Components) (opts : BuilderOptions)
      (spec₁ : OpenApi) (comps₁ : Components),
      (∀ e ∈ es, GenMono e.2 ∧ GenStable e.2) →
      runOps opts spec comps es = (.ok spec₁, comps₁) →
      runOps opts spec comps₁ es = (.ok spec₁, comps₁)
  | [], spec, comps, opts, spec₁, comps₁, _, h => by
    simp only [runOps, Prod.mk.injEq] at h ⊢
    exact ⟨h.1, trivial⟩
  | ((path, method), g) :: rest, spec, comps, opts, spec₁, comps₁, hms, h => by
    have hstab : GenStable g := (hms _ (List.mem_cons_self _ _)).2
    have hrest : ∀ e ∈ rest, GenMono e.2 ∧ GenStable e.2 :=
      fun e he => hms e (List.mem_cons_of_mem _ he)
    cases hgen : g comps opts with
    | error e =>
      rw [runOps_cons_generr hgen] at h
      exact absurd (congrArg Prod.fst h) (by simp)
    | ok pr =>
      obtain ⟨op, comps'⟩ := pr
      cases hset : PathItem.set ((alookup spec.paths path).getD {}) method op with
      | none =>
        rw [runOps_cons_seterr hgen hset] at h
        exact absurd (congrArg Prod.fst h) (by simp)
      | some item =>
        rw [runOps_cons_ok hgen hset] at h
        have hext : comps'.Extends comps₁ := by
          have hx := runOps_extends rest { spec with paths := btreeInsert spec.paths path item }
            comps' opts (fun e he => (hrest e he).1)
          rwa [h] at hx
        have hgen₂ : g comps₁ opts = .ok (op, comps₁) := hstab _ _ _ _ hgen _ hext
        rw [runOps_cons_ok hgen₂ hset]
        exact runOps_fixpoint rest _ comps' opts spec₁ comps₁ hrest h

/-- C2: with the registrations held fixed, a second `build()` on the
unmodified builder returns the identical document: the embedding has no
hash-iteration or time dependence, and the state `build` leaves behind
(sorted pending map, populated components) reproduces the same output. -/
theorem build_repeat_deterministic (b : OpenApiBuilder)
    (hg : ∀ e ∈ b.operations, GenMono e.2 ∧ GenStable e.2)
    (hok : ((b.build).1).isOk = true) :
    ((b.build).2.build).1 = (b.build).1 := by
  have hgs : ∀ e ∈ List.insertionSort entryLE b.operations, GenMono e.2 ∧ GenStable e.2 :=
    fun e he => hg e ((List.mem_insertionSort entryLE).mp he)
  rcases hrun : runOps b.builder_options b.spec b.components
      (List.insertionSort entryLE b.operations) with ⟨res, comps₁⟩
  cases res with
  | error e =>
    exfalso
    have : (b.build).1 = .error e := by
      simp only [OpenApiBuilder.build, hrun]
    rw [this] at hok
    simp [Except.isOk, Except.toBool] at hok
  | ok spec₁ =>
    cases hoc : comps₁.okapi_components with
    | error e =>
      exfalso
      have : (b.build).1 = .error e := by
        simp only [OpenApiBuilder.build, hrun, hoc]
      rw [this] at hok
      simp [Except.isOk, Except.toBool] at hok
    | ok oc =>
      have hb₁ : (b.build).2 =
          { b with operations := List.insertionSort entryLE b.operations,
                   components := comps₁ } := by
        rw [build_snd, hrun]
      have hres : (b.build).1 = .ok { spec₁ with components := some oc } := by
        simp only [OpenApiBuilder.build, hrun, hoc]
      have hsorted : List.insertionSort entryLE (List.insertionSort entryLE b.operations)
          = List.insertionSort entryLE b.operations :=
        (List.sorted_insertionSort entryLE b.operations).insertionSort_eq
      have hrun₂ : runOps b.builder_options b.spec comps₁
          (List.insertionSort entryLE b.operations) = (.ok spec₁, comps₁) :=
        runOps_fixpoint _ _ _ _ _ _ hgs hrun
      rw [hres, hb₁]
      simp only [OpenApiBuilder.build, hsorted, hrun₂, hoc]

/-- Concrete builder for the C2 witness. -/
def bRepeat : OpenApiBuilder := (OpenApiBuilder.new "t" "v").operation "/w" .get genDefaultOp

theorem genDefaultOp_mono : GenMono genDefaultOp := by
  intro c o op c' h
  simp only [genDefaultOp, Except.ok.injEq, Prod.mk.injEq] at h
  rw [← h.2]
  exact Components.Extends.rfl c

theorem genDefaultOp_stable : GenStable genDefaultOp := by
  intro c o op c' h d _
  simp only [genDefaultOp, Except.ok.injEq, Prod.mk.injEq] at h ⊢
  exact ⟨h.1, trivial⟩

/-- Witness for C2 at a concrete single-operation builder. -/
theorem build_repeat_deterministic_witness :
    ((bRepeat.build).2.build).1 = (bRepeat.build).1 := by
  refine build_repeat_deterministic bRepeat ?_ (by decide)
  intro e he
  have hops : bRepeat.operations = [(("/w", Method.get), genDefaultOp)] := rfl
  rw [hops] at he
  rcases List.mem_singleton.mp he with rfl
  exact ⟨genDefaultOp_mono, genDefaultOp_stable⟩

/-! ### Pending-map insertion lemmas (C10, C4, C5) -/

theorem indexInsert_fst {κ β : Type} [DecidableEq κ] :
    ∀ (l : List (κ × β)) (k : κ) (v : β), (indexInsert l k v).1 = alookup l k
  | [], _, _ => rfl
  | (k', v') :: rest, k, v => by
    by_cases h : k' = k
    · subst h
      simp [indexInsert, alookup]
    · simp [indexInsert, alookup, h, indexInsert_fst rest k v]

theorem indexInsert_lookup_self {κ β : Type} [DecidableEq κ] :
    ∀ (l : List (κ × β)) (k : κ) (v : β), alookup (indexInsert l k v).2 k = some v
  | [], k, v => by simp [indexInsert, alookup]
  | (k', v') :: rest, k, v => by
    by_cases h : k' = k
    · subst h
      simp [indexInsert, alookup]
    · simp [indexInsert, alookup, h, indexInsert_lookup_self rest k v]

theorem indexInsert_lookup_other {κ β : Type} [DecidableEq κ] :
    ∀ (l : List (κ × β)) (k k' : κ) (v : β), k' ≠ k →
      alookup (indexInsert l k v).2 k' = alookup l k'
  | [], k, k', v, hne => by simp [indexInsert, alookup, Ne.symm hne]
  | (k₀, v₀) :: rest, k, k', v, hne => by
    by_cases h : k₀ = k
    · subst h
      simp [indexInsert, alookup, Ne.symm hne]
    · by_cases h' : k₀ = k'
      · subst h'
        simp [indexInsert, alookup, h]
      · simp [indexInsert, alookup, h, h', indexInsert_lookup_other rest k k' v hne]

/-- C10: when `try_operation` reports that `(path, method)` is already
present, the insertion has nevertheless happened — the new generator has
replaced the stored one — and therefore the error-discarding variant
`operation` replaces existing entries. -/
theorem tryOperation_error_not_atomic (b : OpenApiBuilder) (path : String)
    (method : Method) (gOld gNew : OperationGenerator)
    (h : alookup b.operations (path, method) = some gOld) :
    (b.tryOperation path method gNew).1
        = .error (method.toStr ++ " " ++ path ++ " is already present in specification")
      ∧ alookup ((b.tryOperation path method gNew).2.operations) (path, method) = some gNew
      ∧ (b.operation path method gNew).operations
          = (b.tryOperation path method gNew).2.operations := by
  have h1 : (indexInsert b.operations (path, method) gNew).1 = some gOld :=
    (indexInsert_fst b.operations (path, method) gNew).trans h
  refine ⟨?_, ?_, rfl⟩
  · simp only [OpenApiBuilder.tryOperation, h1]
  · simp only [OpenApiBuilder.tryOperation, h1]
    exact indexInsert_lookup_self b.operations (path, method) gNew

/-- A generator producing an operation with explicit id `"echo"`. -/
def genEcho : OperationGenerator := fun c _ => .ok ({ operation_id := some "echo" }, c)

/-- A distinct generator also producing id `"echo"`. -/
def genEcho2 : OperationGenerator :=
  fun c _ => .ok ({ operation_id := some "echo", summary := some "second" }, c)

/-- Builder with an existing pending registration at `("/a", GET)`. -/
def bReplace : OpenApiBuilder := (OpenApiBuilder.new "t" "v").operation "/a" .get genDefaultOp

/-- Witness for C10 at a concrete builder. -/
theorem tryOperation_error_not_atomic_witness :
    (bReplace.tryOperation "/a" Method.get genEcho).1
        = .error (Method.get.toStr ++ " " ++ "/a" ++ " is already present in specification")
      ∧ alookup ((bReplace.tryOperation "/a" Method.get genEcho).2.operations)
          ("/a", Method.get) = some genEcho
      ∧ (bReplace.operation "/a" Method.get genEcho).operations
          = (bReplace.tryOperation "/a" Method.get genEcho).2.operations :=
  tryOperation_error_not_atomic bReplace "/a" Method.get genDefaultOp genEcho rfl

/-! ### Duplicate operation ids (C4) and registration effects (C5) -/

/-- Builder holding two pending generators that both produce operations
with explicit id `"echo"`, at different paths. -/
def bDupIds : OpenApiBuilder :=
  ((OpenApiBuilder.new "t" "v").operation "/a" .get genEcho).operation "/b" .get genEcho2

/-- C4 counterexample: `build()` performs no operation-id check — the
duplicate-id builder produces an `Ok` document in which both paths carry
operations with the same id `"echo"`. -/
theorem build_accepts_duplicate_operation_ids :
    (bDupIds.build).1
      = .ok { title := "t", version := "v",
              paths := [("/a", { get := some { operation_id := some "echo" } }),
                        ("/b", { get := some { operation_id := some "echo",
                                               summary := some "second" } })],
              components := some {} } := by
  decide

theorem addOperationPlace_known (b : OpenApiBuilder) (path : String) (method : Method)
    (op : Operation) :
    ((b.addOperationPlace path method op).2).known_operation_ids = b.known_operation_ids := by
  simp only [OpenApiBuilder.addOperationPlace]
  cases h : PathItem.set ((alookup b.spec.paths path).getD {}) method op <;> simp [h]

/-- C4 amended: the duplicate-id rejection happens at `add_operation`
(registration) time: once a registration has recorded id `i`, a second
`add_operation` whose generated operation carries the same id fails with
the duplicate-operation-id error. -/
theorem addOperation_rejects_duplicate_id
    (b : OpenApiBuilder) (p₁ p₂ : String) (m₁ m₂ : Method) (g₁ g₂ : OperationGenerator)
    (op₁ op₂ : Operation) (c₁ c₂ : Components) (i : String)
    (hg₁ : g₁ b.components b.builder_options = .ok (op₁, c₁))
    (hid₁ : op₁.operation_id = some i)
    (hok₁ : (b.addOperation p₁ m₁ g₁).1 = .ok ())
    (hg₂ : g₂ (b.addOperation p₁ m₁ g₁).2.components
        (b.addOperation p₁ m₁ g₁).2.builder_options = .ok (op₂, c₂))
    (hid₂ : op₂.operation_id = some i) :
    ((b.addOperation p₁ m₁ g₁).2.addOperation p₂ m₂ g₂).1
      = .error ("Found duplicate operation_id " ++ i ++ ".") := by
  by_cases hmem : i ∈ b.known_operation_ids
  · exfalso
    have herr : (b.addOperation p₁ m₁ g₁).1
        = .error ("Found duplicate operation_id " ++ i ++ ".") := by
      simp only [OpenApiBuilder.addOperation, hg₁, hid₁, if_pos hmem]
    rw [herr] at hok₁
    cases hok₁
  · have hstep : b.addOperation p₁ m₁ g₁
        = OpenApiBuilder.addOperationPlace
            { b with components := c₁, known_operation_ids := b.known_operation_ids ++ [i] }
            p₁ m₁ op₁ := by
      simp only [OpenApiBuilder.addOperation, hg₁, hid₁, if_neg hmem]
    have hknown : (b.addOperation p₁ m₁ g₁).2.known_operation_ids
        = b.known_operation_ids ++ [i] := by
      rw [hstep, addOperationPlace_known]
    have hmem₂ : i ∈ (b.addOperation p₁ m₁ g₁).2.known_operation_ids := by
      rw [hknown]
      exact List.mem_append_right _ (List.mem_singleton.mpr rfl)
    set B := (b.addOperation p₁ m₁ g₁).2 with hB
    simp only [OpenApiBuilder.addOperation, hg₂, hid₂, if_pos hmem₂]

/-- Witness for C4's amended statement at concrete inputs. -/
theorem addOperation_rejects_duplicate_id_witness :
    (((OpenApiBuilder.new "t" "v").addOperation "/a" Method.get genEcho).2.addOperation
        "/b" Method.get genEcho2).1
      = .error ("Found duplicate operation_id " ++ "echo" ++ ".") :=
  addOperation_rejects_duplicate_id (OpenApiBuilder.new "t" "v") "/a" "/b" Method.get Method.get
    genEcho genEcho2 { operation_id := some "echo" }
    { operation_id := some "echo", summary := some "second" }
    (OpenApiBuilder.new "t" "v").components
    ((OpenApiBuilder.new "t" "v").addOperation "/a" Method.get genEcho).2.components
    "echo" rfl rfl rfl rfl rfl

/-- C5 counterexample: `add_operation` executes the generator at
registration time — the document's path map and the id set are mutated by
the mere registration, before any `build()`. -/
theorem addOperation_mutates_at_registration :
    ¬ (((OpenApiBuilder.new "t" "v").addOperation "/a" .get genEcho).2.spec.paths
        = (OpenApiBuilder.new "t" "v").spec.paths)
    ∧ ((OpenApiBuilder.new "t" "v").addOperation "/a" .get genEcho).2.known_operation_ids
        = ["echo"] := by
  constructor
  · decide
  · rfl

/-- C5 amended: the deferred registration APIs are `try_operation` and
`operation`: they only record the pending generator — the document, the
schema registry and the id set are untouched, and the generator is not
invoked (the state change is the same for every generator). -/
theorem tryOperation_snd (b : OpenApiBuilder) (path : String) (method : Method)
    (g : OperationGenerator) :
    (b.tryOperation path method g).2
      = { b with operations := (indexInsert b.operations (path, method) g).2 } := by
  simp only [OpenApiBuilder.tryOperation]
  cases h : (indexInsert b.operations (path, method) g).1 <;> simp [h]

theorem tryOperation_is_pure_bookkeeping :
    ∀ (b : OpenApiBuilder) (path : String) (method : Method) (g : OperationGenerator),
      (b.tryOperation path method g).2.spec = b.spec
      ∧ (b.tryOperation path method g).2.components = b.components
      ∧ (b.tryOperation path method g).2.known_operation_ids = b.known_operation_ids
      ∧ (b.tryOperation path method g).2.operations
          = (indexInsert b.operations (path, method) g).2
      ∧ (b.operation path method g) = (b.tryOperation path method g).2 := by
  intro b path method g
  refine ⟨?_, ?_, ?_, ?_, ?_⟩
  · rw [tryOperation_snd]
  · rw [tryOperation_snd]
  · rw [tryOperation_snd]
  · rw [tryOperation_snd]
  · rw [tryOperation_snd]
    exact tryOperation_snd b path method g

/-! ### `MethodRouterOperations` and its merge (C3) -/

/-- `MethodRouterOperations` from `axum_integration/method_router.rs`. -/
structure MethodRouterOperations where
  get : Option OperationGenerator := none
  head : Option OperationGenerator := none
  delete : Option OperationGenerator := none
  options : Option OperationGenerator := none
  patch : Option OperationGenerator := none
  post : Option OperationGenerator := none
  put : Option OperationGenerator := none
  trace : Option OperationGenerator := none

/-- The `merge!` macro body for one method slot: both populated is a panic
(embedded as an error) whose message names the slot. -/
def mergeSlot (a b : Option OperationGenerator) (slot : String) :
    Except String (Option OperationGenerator) :=
  match a, b with
  | some _, some _ =>
    .error ("Overlapping method operation. Cannot merge two method operation that both define `"
      ++ slot ++ "`")
  | some svc, none => .ok (some svc)
  | none, some svc => .ok (some svc)
  | none, none => .ok none

/-- `MethodRouterOperations::merge`, slots evaluated in source order. -/
def MethodRouterOperations.merge (a b : MethodRouterOperations) :
    Except String MethodRouterOperations := do
  let g ← mergeSlot a.get b.get "get"
  let h ← mergeSlot a.head b.head "head"
  let d ← mergeSlot a.delete b.delete "delete"
  let o ← mergeSlot a.options b.options "options"
  let pa ← mergeSlot a.patch b.patch "patch"
  let po ← mergeSlot a.post b.post "post"
  let pu ← mergeSlot a.put b.put "put"
  let t ← mergeSlot a.trace b.trace "trace"
  return { get := g, head := h, delete := d, options := o,
           patch := pa, post := po, put := pu, trace := t }

/-- No method slot is populated on both sides. -/
def MethodRouterOperations.NoOverlap (a b : MethodRouterOperations) : Prop :=
  (a.get = none ∨ b.get = none) ∧ (a.head = none ∨ b.head = none)
    ∧ (a.delete = none ∨ b.delete = none) ∧ (a.options = none ∨ b.options = none)
    ∧ (a.patch = none ∨ b.patch = none) ∧ (a.post = none ∨ b.post = none)
    ∧ (a.put = none ∨ b.put = none) ∧ (a.trace = none ∨ b.trace = none)

/-- The populated side of a slot (either side may be empty). -/
def slotUnion (x y : Option OperationGenerator) : Option OperationGenerator :=
  match x with
  | some s => some s
  | none => y

theorem mergeSlot_ok {x y : Option OperationGenerator} (slot : String)
    (h : x = none ∨ y = none) : mergeSlot x y slot = .ok (slotUnion x y) := by
  rcases h with h | h
  · rw [h]
    cases y <;> rfl
  · rw [h]
    cases x <;> rfl

/-- The eight method slots, listed in the order `merge` evaluates them. -/
inductive MSlot where
  | get
  | head
  | delete
  | options
  | patch
  | post
  | put
  | trace
deriving DecidableEq

/-- Project one method slot of a route-operation map. -/
def MethodRouterOperations.slot (m : MethodRouterOperations) : MSlot → Option OperationGenerator
  | .get => m.get
  | .head => m.head
  | .delete => m.delete
  | .options => m.options
  | .patch => m.patch
  | .post => m.post
  | .put => m.put
  | .trace => m.trace

/-- The field name `merge` interpolates into the panic message of a slot. -/
def slotName : MSlot → String
  | .get => "get"
  | .head => "head"
  | .delete => "delete"
  | .options => "options"
  | .patch => "patch"
  | .post => "post"
  | .put => "put"
  | .trace => "trace"

/-- Position of a slot in `merge`\'s evaluation order. -/
def slotIdx : MSlot → Nat
  | .get => 0
  | .head => 1
  | .delete => 2
  | .options => 3
  | .patch => 4
  | .post => 5
  | .put => 6
  | .trace => 7

theorem mergeSlot_ok_inv {x y : Option OperationGenerator} {slot : String}
    {z : Option OperationGenerator} (h : mergeSlot x y slot = .ok z) :
    x = none ∨ y = none := by
  cases x <;> cases y <;> simp_all [mergeSlot]

theorem not_both_some {x y : Option OperationGenerator}
    (h : ¬(x.isSome = true ∧ y.isSome = true)) : x = none ∨ y = none := by
  cases x <;> cases y <;> simp_all

/-- A successful `merge` implies no method slot was populated on both
sides. -/
theorem merge_ok_no_overlap {a b m : MethodRouterOperations}
    (hm : a.merge b = .ok m) : a.NoOverlap b := by
  cases h₁ : mergeSlot a.get b.get "get" with
  | error e => simp [MethodRouterOperations.merge, h₁, bind, Except.bind] at hm
  | ok z₁ =>
    cases h₂ : mergeSlot a.head b.head "head" with
    | error e => simp [MethodRouterOperations.merge, h₁, h₂, bind, Except.bind] at hm
    | ok z₂ =>
      cases h₃ : mergeSlot a.delete b.delete "delete" with
      | error e => simp [MethodRouterOperations.merge, h₁, h₂, h₃, bind, Except.bind] at hm
      | ok z₃ =>
        cases h₄ : mergeSlot a.options b.options "options" with
        | error e =>
          simp [MethodRouterOperations.merge, h₁, h₂, h₃, h₄, bind, Except.bind] at hm
        | ok z₄ =>
          cases h₅ : mergeSlot a.patch b.patch "patch" with
          | error e =>
            simp [MethodRouterOperations.merge, h₁, h₂, h₃, h₄, h₅, bind,
              Except.bind] at hm
          | ok z₅ =>
            cases h₆ : mergeSlot a.post b.post "post" with
            | error e =>
              simp [MethodRouterOperations.merge, h₁, h₂, h₃, h₄, h₅, h₆, bind,
                Except.bind] at hm
            | ok z₆ =>
              cases h₇ : mergeSlot a.put b.put "put" with
              | error e =>
                simp [MethodRouterOperations.merge, h₁, h₂, h₃, h₄, h₅, h₆, h₇,
                  bind, Except.bind] at hm
              | ok z₇ =>
                cases h₈ : mergeSlot a.trace b.trace "trace" with
                | error e =>
                  simp [MethodRouterOperations.merge, h₁, h₂, h₃, h₄, h₅, h₆, h₇,
                    h₈, bind, Except.bind] at hm
                | ok z₈ =>
                  exact ⟨mergeSlot_ok_inv h₁, mergeSlot_ok_inv h₂, mergeSlot_ok_inv h₃,
                    mergeSlot_ok_inv h₄, mergeSlot_ok_inv h₅, mergeSlot_ok_inv h₆,
                    mergeSlot_ok_inv h₇, mergeSlot_ok_inv h₈⟩

theorem mergeSlot_both (x y : OperationGenerator) (slot : String) :
    mergeSlot (some x) (some y) slot
      = .error ("Overlapping method operation. Cannot merge two method operation that both define `"
          ++ slot ++ "`") := rfl

/-- C3: for every method slot, merging two route-operation maps that both
populate it fails — when it is the first overlapping slot in evaluation
order, with the message naming that method — and a both-populated slot
anywhere makes the merge fail; with no overlap the merge succeeds and each
slot takes its populated side. -/
theorem methodRouter_merge_conflict_semantics :
    (∀ (a b : MethodRouterOperations) (s : MSlot),
        (a.slot s).isSome = true → (b.slot s).isSome = true →
        (∀ t : MSlot, slotIdx t < slotIdx s →
          ¬((a.slot t).isSome = true ∧ (b.slot t).isSome = true)) →
        a.merge b = .error
          ("Overlapping method operation. Cannot merge two method operation that both define `"
            ++ slotName s ++ "`"))
    ∧ (∀ (a b : MethodRouterOperations) (s : MSlot),
        (a.slot s).isSome = true → (b.slot s).isSome = true →
        (a.merge b).isOk = false)
    ∧ (∀ a b : MethodRouterOperations, a.NoOverlap b →
        a.merge b = .ok { get := slotUnion a.get b.get, head := slotUnion a.head b.head,
                          delete := slotUnion a.delete b.delete,
                          options := slotUnion a.options b.options,
                          patch := slotUnion a.patch b.patch, post := slotUnion a.post b.post,
                          put := slotUnion a.put b.put, trace := slotUnion a.trace b.trace }) := by
  refine ⟨?_, ?_, ?_⟩
  · intro a b s hsa hsb hfirst
    obtain ⟨x, hx⟩ := Option.isSome_iff_exists.mp hsa
    obtain ⟨y, hy⟩ := Option.isSome_iff_exists.mp hsb
    cases s with
    | get =>
      simp only [MethodRouterOperations.slot] at hx hy
      simp [MethodRouterOperations.merge, mergeSlot_both, hx, hy, slotName, bind, Except.bind]
    | head =>
      simp only [MethodRouterOperations.slot] at hx hy
      have e₁ : a.get = none ∨ b.get = none := not_both_some (hfirst .get (by decide))
      simp [MethodRouterOperations.merge, mergeSlot_ok "get" e₁, mergeSlot_both, hx, hy,
        slotName, bind, Except.bind]
    | delete =>
      simp only [MethodRouterOperations.slot] at hx hy
      have e₁ : a.get = none ∨ b.get = none := not_both_some (hfirst .get (by decide))
      have e₂ : a.head = none ∨ b.head = none := not_both_some (hfirst .head (by decide))
      simp [MethodRouterOperations.merge, mergeSlot_ok "get" e₁, mergeSlot_ok "head" e₂,
        mergeSlot_both, hx, hy, slotName, bind, Except.bind]
    | options =>
      simp only [MethodRouterOperations.slot] at hx hy
      have e₁ : a.get = none ∨ b.get = none := not_both_some (hfirst .get (by decide))
      have e₂ : a.head = none ∨ b.head = none := not_both_some (hfirst .head (by decide))
      have e₃ : a.delete = none ∨ b.delete = none := not_both_some (hfirst .delete (by decide))
      simp [MethodRouterOperations.merge, mergeSlot_ok "get" e₁, mergeSlot_ok "head" e₂,
        mergeSlot_ok "delete" e₃, mergeSlot_both, hx, hy, slotName, bind, Except.bind]
    | patch =>
      simp only [MethodRouterOperations.slot] at hx hy
      have e₁ : a.get = none ∨ b.get = none := not_both_some (hfirst .get (by decide))
      have e₂ : a.head = none ∨ b.head = none := not_both_some (hfirst .head (by decide))
      have e₃ : a.delete = none ∨ b.delete = none := not_both_some (hfirst .delete (by decide))
      have e₄ : a.options = none ∨ b.options = none :=
        not_both_some (hfirst .options (by decide))
      simp [MethodRouterOperations.merge, mergeSlot_ok "get" e₁, mergeSlot_ok "head" e₂,
        mergeSlot_ok "delete" e₃, mergeSlot_ok "options" e₄, mergeSlot_both, hx, hy, slotName,
        bind, Except.bind]
    | post =>
      simp only [MethodRouterOperations.slot] at hx hy
      have e₁ : a.get = none ∨ b.get = none := not_both_some (hfirst .get (by decide))
      have e₂ : a.head = none ∨ b.head = none := not_both_some (hfirst .head (by decide))
      have e₃ : a.delete = none ∨ b.delete = none := not_both_some (hfirst .delete (by decide))
      have e₄ : a.options = none ∨ b.options = none :=
        not_both_some (hfirst .options (by decide))
      have e₅ : a.patch = none ∨ b.patch = none := not_both_some (hfirst .patch (by decide))
      simp [MethodRouterOperations.merge, mergeSlot_ok "get" e₁, mergeSlot_ok "head" e₂,
        mergeSlot_ok "delete" e₃, mergeSlot_ok "options" e₄, mergeSlot_ok "patch" e₅,
        mergeSlot_both, hx, hy, slotName, bind, Except.bind]
    | put =>
      simp only [MethodRouterOperations.slot] at hx hy
      have e₁ : a.get = none ∨ b.get = none := not_both_some (hfirst .get (by decide))
      have e₂ : a.head = none ∨ b.head = none := not_both_some (hfirst .head (by decide))
      have e₃ : a.delete = none ∨ b.delete = none := not_both_some (hfirst .delete (by decide))
      have e₄ : a.options = none ∨ b.options = none :=
        not_both_some (hfirst .options (by decide))
      have e₅ : a.patch = none ∨ b.patch = none := not_both_some (hfirst .patch (by decide))
      have e₆ : a.post = none ∨ b.post = none := not_both_some (hfirst .post (by decide))
      simp [MethodRouterOperations.merge, mergeSlot_ok "get" e₁, mergeSlot_ok "head" e₂,
        mergeSlot_ok "delete" e₃, mergeSlot_ok "options" e₄, mergeSlot_ok "patch" e₅,
        mergeSlot_ok "post" e₆, mergeSlot_both, hx, hy, slotName, bind, Except.bind]
    | trace =>
      simp only [MethodRouterOperations.slot] at hx hy
      have e₁ : a.get = none ∨ b.get = none := not_both_some (hfirst .get (by decide))
      have e₂ : a.head = none ∨ b.head = none := not_both_some (hfirst .head (by decide))
      have e₃ : a.delete = none ∨ b.delete = none := not_both_some (hfirst .delete (by decide))
      have e₄ : a.options = none ∨ b.options = none :=
        not_both_some (hfirst .options (by decide))
      have e₅ : a.patch = none ∨ b.patch = none := not_both_some (hfirst .patch (by decide))
      have e₆ : a.post = none ∨ b.post = none := not_both_some (hfirst .post (by decide))
      have e₇ : a.put = none ∨ b.put = none := not_both_some (hfirst .put (by decide))
      simp [MethodRouterOperations.merge, mergeSlot_ok "get" e₁, mergeSlot_ok "head" e₂,
        mergeSlot_ok "delete" e₃, mergeSlot_ok "options" e₄, mergeSlot_ok "patch" e₅,
        mergeSlot_ok "post" e₆, mergeSlot_ok "put" e₇, mergeSlot_both, hx, hy, slotName,
        bind, Except.bind]
  · intro a b s hsa hsb
    cases hm : a.merge b with
    | error e => rfl
    | ok m =>
      exfalso
      obtain ⟨n₁, n₂, n₃, n₄, n₅, n₆, n₇, n₈⟩ := merge_ok_no_overlap hm
      cases s with
      | get => rcases n₁ with h | h <;> simp_all [MethodRouterOperations.slot]
      | head => rcases n₂ with h | h <;> simp_all [MethodRouterOperations.slot]
      | delete => rcases n₃ with h | h <;> simp_all [MethodRouterOperations.slot]
      | options => rcases n₄ with h | h <;> simp_all [MethodRouterOperations.slot]
      | patch => rcases n₅ with h | h <;> simp_all [MethodRouterOperations.slot]
      | post => rcases n₆ with h | h <;> simp_all [MethodRouterOperations.slot]
      | put => rcases n₇ with h | h <;> simp_all [MethodRouterOperations.slot]
      | trace => rcases n₈ with h | h <;> simp_all [MethodRouterOperations.slot]
  · intro a b hno
    obtain ⟨h₁, h₂, h₃, h₄, h₅, h₆, h₇, h₈⟩ := hno
    rw [MethodRouterOperations.merge]
    rw [mergeSlot_ok "get" h₁, mergeSlot_ok "head" h₂, mergeSlot_ok "delete" h₃,
      mergeSlot_ok "options" h₄, mergeSlot_ok "patch" h₅, mergeSlot_ok "post" h₆,
      mergeSlot_ok "put" h₇, mergeSlot_ok "trace" h₈]
    rfl

/-- Map with a `GET` generator. -/
def mRouterA : MethodRouterOperations := { get := some genDefaultOp }

/-- A second map with a `GET` generator. -/
def mRouterB : MethodRouterOperations := { get := some genEcho }

/-- Map with a `POST` generator. -/
def mRouterC : MethodRouterOperations := { post := some genEcho }

/-- A second map with a `POST` generator. -/
def mRouterD : MethodRouterOperations := { post := some genDefaultOp }

/-- Witness for C3: A+B (both GET) errors naming `get`; D+C (both POST)
errors naming `post`; A+C (GET and POST) succeeds carrying both. -/
theorem methodRouter_merge_conflict_semantics_witness :
    mRouterA.merge mRouterB = .error
        ("Overlapping method operation. Cannot merge two method operation that both define `get`")
      ∧ mRouterD.merge mRouterC = .error
        ("Overlapping method operation. Cannot merge two method operation that both define `post`")
      ∧ mRouterA.merge mRouterC
        = .ok { get := some genDefaultOp, post := some genEcho } :=
  ⟨methodRouter_merge_conflict_semantics.1 mRouterA mRouterB .get rfl rfl
      (fun t ht => absurd ht (Nat.not_lt_zero _)),
    methodRouter_merge_conflict_semantics.1 mRouterD mRouterC .post rfl rfl
      (by
        intro t ht hov
        cases t <;>
          simp [slotIdx, MethodRouterOperations.slot, mRouterD, mRouterC] at ht hov),
    methodRouter_merge_conflict_semantics.2.2 mRouterA mRouterC
      ⟨Or.inr rfl, Or.inl rfl, Or.inl rfl, Or.inl rfl, Or.inl rfl, Or.inl rfl,
        Or.inl rfl, Or.inl rfl⟩⟩

/-! ### `Router` shadow map (C6) -/

/-- The OpenAPI-relevant state of `axum_integration::Router`: the shadow
map from path to `MethodRouterOperations` (a `HashMap` in Rust; embedded
as a replace-or-append association list, with all statements phrased via
lookups so no iteration order is relied upon). -/
structure Router where
  routes_operations_map : List (String × MethodRouterOperations) := []

/-- `Router::route`: merge the new method router's operations into the
path's existing entry (`entry(path).or_default()` then
`MethodRouterOperations::merge`, whose overlap panic propagates). -/
def Router.route (r : Router) (path : String) (mr : MethodRouterOperations) :
    Except String Router :=
  let cur := (alookup r.routes_operations_map path).getD {}
  match cur.merge mr with
  | .error e => .error e
  | .ok merged =>
    .ok { routes_operations_map := (indexInsert r.routes_operations_map path merged).2 }

/-- `Router::merge`: `self.routes_operations_map.extend(other.routes_operations_map)` —
every entry of `other` is inserted into `self`, replacing whole entries on
path collision. -/
def Router.merge (a b : Router) : Router :=
  { routes_operations_map :=
      b.routes_operations_map.foldl (fun m e => (indexInsert m e.1 e.2).2)
        a.routes_operations_map }

theorem alookup_eq_none_of_not_mem {κ β : Type} [DecidableEq κ] :
    ∀ (l : List (κ × β)) (k : κ), k ∉ l.map Prod.fst → alookup l k = none
  | [], _, _ => rfl
  | (k₀, v₀) :: rest, k, h => by
    have hne : k₀ ≠ k := fun hc => h (by rw [hc]; exact List.mem_cons_self _ _)
    have hrest : k ∉ rest.map Prod.fst := fun hc => h (List.mem_cons_of_mem _ hc)
    simp [alookup, hne, alookup_eq_none_of_not_mem rest k hrest]

theorem foldl_insert_lookup {β : Type} :
    ∀ (l : List (String × β)) (m : List (String × β)) (p : String),
      (l.map Prod.fst).Nodup →
      alookup (l.foldl (fun acc e => (indexInsert acc e.1 e.2).2) m) p
        = (alookup l p).orElse (fun _ => alookup m p)
  | [], m, p, _ => by simp [alookup, Option.orElse]
  | (k, v) :: rest, m, p, hn => by
    have hn' : (rest.map Prod.fst).Nodup := (List.nodup_cons.mp (by simpa using hn)).2
    have hknotin : k ∉ rest.map Prod.fst := (List.nodup_cons.mp (by simpa using hn)).1
    rw [List.foldl_cons]
    rw [foldl_insert_lookup rest _ p hn']
    by_cases hpk : p = k
    · subst hpk
      rw [alookup_eq_none_of_not_mem rest p hknotin]
      simp [alookup, Option.orElse, indexInsert_lookup_self]
    · have h₁ : alookup (indexInsert m k v).2 p = alookup m p :=
        indexInsert_lookup_other m k p v hpk
      simp [alookup, Option.orElse, h₁, Ne.symm hpk]

/-- Router with only `GET /p` documented. -/
def rGet : Router := { routes_operations_map := [("/p", mRouterA)] }

/-- Router with only `POST /p` documented. -/
def rPost : Router := { routes_operations_map := [("/p", mRouterC)] }

/-- C6 counterexample: the two routers arise from `route` on the same path
`/p` (A documents GET, C documents POST), yet `Router::merge` keeps only
the other router's map for `/p` — the GET documentation is silently
dropped instead of the maps being slot-merged. -/
theorem router_merge_drops_left_operations :
    Router.route { } "/p" mRouterA = .ok rGet
      ∧ Router.route { } "/p" mRouterC = .ok rPost
      ∧ (rGet.merge rPost).routes_operations_map = [("/p", mRouterC)]
      ∧ mRouterC.get = none := by
  exact ⟨rfl, rfl, rfl, rfl⟩

/-- C6 amended: `Router::merge` is a right-biased union of path entries:
a path present in `other` takes `other`'s whole Route Operation Map,
otherwise `self`'s entry survives; method-slot merging is performed by
`route` (repeated registration at one path), not by `merge`. -/
theorem router_merge_right_biased (a b : Router) (p : String)
    (hn : (b.routes_operations_map.map Prod.fst).Nodup) :
    alookup ((a.merge b).routes_operations_map) p
      = (alookup b.routes_operations_map p).orElse
          (fun _ => alookup a.routes_operations_map p) :=
  foldl_insert_lookup b.routes_operations_map a.routes_operations_map p hn

/-- Witness for C6's amended statement at the concrete routers. -/
theorem router_merge_right_biased_witness :
    alookup ((rGet.merge rPost).routes_operations_map) "/p"
      = (alookup rPost.routes_operations_map "/p").orElse
          (fun _ => alookup rGet.routes_operations_map "/p") :=
  router_merge_right_biased rGet rPost "/p" (by decide)

/-! ### Serving the specification (C7) -/

/-- `str::to_ascii_lowercase` (Lean's `Char.toLower` is also ASCII-only). -/
def asciiLower (s : String) : String := ⟨s.data.map Char.toLower⟩

/-- Is the first character list a prefix of the second? -/
def charPrefixOf : List Char → List Char → Bool
  | [], _ => true
  | _ :: _, [] => false
  | a :: as, b :: bs => if a = b then charPrefixOf as bs else false

/-- Is the first character list a contiguous infix of the second? -/
def charInfixOf : List Char → List Char → Bool
  | n, [] => n.isEmpty
  | n, c :: rest => charPrefixOf n (c :: rest) || charInfixOf n rest

/-- Rust `str::contains` (substring test). -/
def strContains (h n : String) : Bool := charInfixOf n.data h.data

/-- The observable outcome of `serve_openapi_spec`: the body/format of the
response (JSON 200, YAML 200, or a 400 with a diagnostic body). -/
inductive SpecResponse where
  | json (spec : OpenApi)
  | yaml (spec : OpenApi)
  | badRequest (body : String)
deriving DecidableEq

/-- `serve_openapi_spec` from `axum_integration/mod.rs`; `yamlFeature` is
`cfg!(feature = "yaml")`, `accept` the `Accept` header after `to_str`
(a missing or non-ASCII header arrives as `none`). -/
def serve_openapi_spec (yamlFeature : Bool) (spec : OpenApi) (accept : Option String) :
    SpecResponse :=
  match accept.map asciiLower with
  | some lowered =>
    if yamlFeature && strContains lowered "yaml" then .yaml spec
    else if strContains lowered "json" then .json spec
    else
      .badRequest
        (if yamlFeature then
          "Bad Accept header value, should contain either \x27json\x27, \x27yaml\x27 or empty"
        else "Bad Accept header value, should contain either \x27json\x27 or empty")
  | none => .json spec

/-- C7 counterexample: an `Accept: */*` request is answered with the 400
diagnostic, not with the JSON document (with or without the yaml feature). -/
theorem serve_rejects_star_accept :
    serve_openapi_spec true { } (some "*/*")
        = .badRequest
          "Bad Accept header value, should contain either \x27json\x27, \x27yaml\x27 or empty"
      ∧ serve_openapi_spec false { } (some "*/*")
        = .badRequest "Bad Accept header value, should contain either \x27json\x27 or empty" := by
  exact ⟨rfl, rfl⟩

/-- C7 amended: an absent header yields JSON; a header whose ASCII
lowering contains "yaml" yields YAML when the yaml feature is on (checked
before "json"); otherwise a header containing "json" yields JSON; any
other value — including `*/*` — yields the 400 diagnostic. -/
theorem serve_openapi_spec_semantics :
    (∀ (y : Bool) (spec : OpenApi), serve_openapi_spec y spec none = .json spec)
    ∧ (∀ (spec : OpenApi) (a : String), strContains (asciiLower a) "yaml" = true →
        serve_openapi_spec true spec (some a) = .yaml spec)
    ∧ (∀ (y : Bool) (spec : OpenApi) (a : String),
        (y = false ∨ strContains (asciiLower a) "yaml" = false) →
        strContains (asciiLower a) "json" = true →
        serve_openapi_spec y spec (some a) = .json spec)
    ∧ (∀ (y : Bool) (spec : OpenApi) (a : String),
        (y = false ∨ strContains (asciiLower a) "yaml" = false) →
        strContains (asciiLower a) "json" = false →
        serve_openapi_spec y spec (some a)
          = .badRequest
            (if y then
              "Bad Accept header value, should contain either \x27json\x27, \x27yaml\x27 or empty"
            else "Bad Accept header value, should contain either \x27json\x27 or empty")) := by
  refine ⟨fun y spec => rfl, fun spec a hy => ?_, fun y spec a hny hj => ?_,
    fun y spec a hny hj => ?_⟩
  · simp [serve_openapi_spec, hy]
  · have hcond : (y && strContains (asciiLower a) "yaml") = false := by
      rcases hny with h | h <;> simp [h]
    simp [serve_openapi_spec, hcond, hj]
  · have hcond : (y && strContains (asciiLower a) "yaml") = false := by
      rcases hny with h | h <;> simp [h]
    simp [serve_openapi_spec, hcond, hj]

/-- Witness for C7's amended statement: a concrete uppercase YAML accept
header is served as YAML, and a JSON one as JSON. -/
theorem serve_openapi_spec_semantics_witness :
    serve_openapi_spec true { } (some "Application/YAML") = .yaml { }
      ∧ serve_openapi_spec true { } (some "application/json") = .json { } :=
  ⟨serve_openapi_spec_semantics.2.1 { } "Application/YAML" rfl,
    serve_openapi_spec_semantics.2.2.1 true { } "application/json" (Or.inr rfl) rfl⟩

/-! ### Path normalization (C8) -/

/-- Rust `str::split(sep)` on character lists (keeps empty segments,
yields one empty segment for the empty input). -/
def splitOnChar (sep : Char) : List Char → List (List Char)
  | [] => [[]]
  | c :: rest =>
    match splitOnChar sep rest with
    | [] => [[]]
    | s :: ss => if c = sep then [] :: s :: ss else (c :: s) :: ss

/-- `Vec::join(sep)` on character lists. -/
def joinWithChar (sep : Char) : List (List Char) → List Char
  | [] => []
  | [s] => s
  | s :: rest => s ++ sep :: joinWithChar sep rest

/-- Rust `str::trim_matches(':')`: strip leading and trailing colons. -/
def trimMatchesColon (l : List Char) : List Char :=
  ((l.dropWhile (fun c => c = ':')).reverse.dropWhile (fun c => c = ':')).reverse

/-- The per-segment body of `convert_axum_path_to_openapi`: a segment
starting with `:` becomes `{trimmed}`, any other passes through. -/
def convertSegment (seg : List Char) : List Char :=
  match seg with
  | [] => []
  | c :: rest =>
    if c = ':' then '{' :: trimMatchesColon (c :: rest) ++ ['}'] else c :: rest

/-- `convert_axum_path_to_openapi` from `axum_integration/utils.rs`,
on the character-list representation. -/
def convertPathChars (path : List Char) : List Char :=
  joinWithChar '/' ((splitOnChar '/' path).map convertSegment)

/-- `convert_axum_path_to_openapi` on strings. -/
def convert_axum_path_to_openapi (s : String) : String :=
  ⟨convertPathChars s.data⟩

theorem splitOnChar_ne_nil (sep : Char) : ∀ l : List Char, splitOnChar sep l ≠ []
  | [] => by simp [splitOnChar]
  | c :: rest => by
    simp only [splitOnChar]
    cases hs : splitOnChar sep rest with
    | nil => exact absurd hs (splitOnChar_ne_nil sep rest)
    | cons s ss => by_cases hc : c = sep <;> simp [hc]

theorem join_split (sep : Char) : ∀ l : List Char, joinWithChar sep (splitOnChar sep l) = l
  | [] => rfl
  | c :: rest => by
    have ih := join_split sep rest
    cases hs : splitOnChar sep rest with
    | nil => exact absurd hs (splitOnChar_ne_nil sep rest)
    | cons s ss =>
      rw [hs] at ih
      by_cases hc : c = sep
      · subst hc
        simp only [splitOnChar, hs, if_true]
        have hj : joinWithChar c ([] :: s :: ss)
            = [] ++ c :: joinWithChar c (s :: ss) := rfl
        rw [hj, List.nil_append, ih]
      · simp only [splitOnChar, hs]
        rw [if_neg hc]
        cases ss with
        | nil => exact congrArg (List.cons c) ih
        | cons s₂ ss₂ =>
          have hj : joinWithChar sep ((c :: s) :: s₂ :: ss₂)
              = (c :: s) ++ sep :: joinWithChar sep (s₂ :: ss₂) := rfl
          have hi : joinWithChar sep (s :: s₂ :: ss₂)
              = s ++ sep :: joinWithChar sep (s₂ :: ss₂) := rfl
          rw [hi] at ih
          rw [hj, List.cons_append, ih]

theorem splitOnChar_sepfree (sep : Char) :
    ∀ l : List Char, sep ∉ l → splitOnChar sep l = [l]
  | [], _ => rfl
  | c :: rest, h => by
    have hc : c ≠ sep := fun hc => h (hc ▸ List.mem_cons_self _ _)
    have hrest : sep ∉ rest := fun hr => h (List.mem_cons_of_mem _ hr)
    simp only [splitOnChar, splitOnChar_sepfree sep rest hrest]
    rw [if_neg hc]

theorem splitOnChar_append_sep (sep : Char) :
    ∀ (s t : List Char), sep ∉ s →
      splitOnChar sep (s ++ sep :: t) = s :: splitOnChar sep t
  | [], t, _ => by
    cases hs : splitOnChar sep t with
    | nil => exact absurd hs (splitOnChar_ne_nil sep t)
    | cons s ss => simp [splitOnChar, hs]
  | c :: s', t, h => by
    have hc : c ≠ sep := fun hc => h (hc ▸ List.mem_cons_self _ _)
    have hrest : sep ∉ s' := fun hr => h (List.mem_cons_of_mem _ hr)
    have ih := splitOnChar_append_sep sep s' t hrest
    cases hsp : splitOnChar sep (s' ++ sep :: t) with
    | nil => exact absurd hsp (splitOnChar_ne_nil sep _)
    | cons u us =>
      rw [hsp] at ih
      injection ih with h1 h2
      simp [splitOnChar, hsp, hc, h1, h2]

theorem split_join (sep : Char) :
    ∀ ll : List (List Char), ll ≠ [] → (∀ seg ∈ ll, sep ∉ seg) →
      splitOnChar sep (joinWithChar sep ll) = ll
  | [], h, _ => absurd rfl h
  | [s], _, hs => by
    have hj : joinWithChar sep [s] = s := rfl
    rw [hj, splitOnChar_sepfree sep s (hs s (List.mem_singleton.mpr rfl))]
  | s :: s₂ :: ss, _, hs => by
    have hj : joinWithChar sep (s :: s₂ :: ss)
        = s ++ sep :: joinWithChar sep (s₂ :: ss) := rfl
    rw [hj, splitOnChar_append_sep sep s _ (hs s (List.mem_cons_self _ _)),
      split_join sep (s₂ :: ss) (by simp) (fun seg h => hs seg (List.mem_cons_of_mem _ h))]

theorem convertSegment_unchanged {seg : List Char} (h : seg.head? ≠ some ':') :
    convertSegment seg = seg := by
  cases seg with
  | nil => rfl
  | cons c rest =>
    have hc : c ≠ ':' := fun hc => h (by rw [hc]; rfl)
    simp [convertSegment, hc]

/-- C8: each segment beginning with a colon is rewritten to brace syntax
(`"/users/:id/posts/:post_id"` becomes `"/users/{id}/posts/{post_id}"`);
a path whose segments carry no leading colon passes through unchanged; and
on any segment decomposition the transform acts segment-wise. -/
theorem convert_axum_path_spec :
    (convert_axum_path_to_openapi "/users/:id/posts/:post_id"
        = "/users/{id}/posts/{post_id}")
    ∧ (∀ s : String, (∀ seg ∈ splitOnChar '/' s.data, seg.head? ≠ some ':') →
        convert_axum_path_to_openapi s = s)
    ∧ (∀ segs : List (List Char), segs ≠ [] → (∀ seg ∈ segs, '/' ∉ seg) →
        convertPathChars (joinWithChar '/' segs)
          = joinWithChar '/' (segs.map convertSegment)) := by
  refine ⟨by decide, fun s h => ?_, fun segs hne hfree => ?_⟩
  · show String.mk (convertPathChars s.data) = s
    unfold convertPathChars
    have hmap : (splitOnChar '/' s.data).map convertSegment = splitOnChar '/' s.data := by
      calc (splitOnChar '/' s.data).map convertSegment
          = (splitOnChar '/' s.data).map id :=
            List.map_congr_left (fun seg hseg => convertSegment_unchanged (h seg hseg))
        _ = splitOnChar '/' s.data := List.map_id _
    rw [hmap, join_split]
  · unfold convertPathChars
    rw [split_join '/' segs hne hfree]

/-- Witness for C8 at a concrete placeholder-free path. -/
theorem convert_axum_path_spec_witness :
    convert_axum_path_to_openapi "/users/posts" = "/users/posts" :=
  convert_axum_path_spec.2.1 "/users/posts" (by decide)

/-! ### Named definitions and finalization (C9) -/

theorem btreeInsert_lookup_self {β : Type} :
    ∀ (m : List (String × β)) (k : String) (v : β), alookup (btreeInsert m k v) k = some v
  | [], k, v => by simp [btreeInsert, alookup]
  | (k', v') :: rest, k, v => by
    by_cases hlt : strLt k k' = true
    · simp [btreeInsert, hlt, alookup]
    · by_cases heq : k = k'
      · subst heq
        simp [btreeInsert, hlt, alookup]
      · simp [btreeInsert, hlt, heq, alookup, Ne.symm heq,
          btreeInsert_lookup_self rest k v]

theorem btreeInsert_lookup_other {β : Type} :
    ∀ (m : List (String × β)) (k k' : String) (v : β), k' ≠ k →
      alookup (btreeInsert m k v) k' = alookup m k'
  | [], k, k', v, hne => by simp [btreeInsert, alookup, Ne.symm hne]
  | (k₀, v₀) :: rest, k, k', v, hne => by
    by_cases hlt : strLt k k₀ = true
    · simp [btreeInsert, hlt, alookup, Ne.symm hne]
    · by_cases heq : k = k₀
      · subst heq
        simp [btreeInsert, hlt, alookup, Ne.symm hne]
      · by_cases h₀ : k₀ = k'
        · subst h₀
          simp [btreeInsert, hlt, heq, alookup]
        · simp [btreeInsert, hlt, heq, alookup, h₀,
            btreeInsert_lookup_other rest k k' v hne]

theorem okapiComponentsFold_isOk :
    ∀ (defs : List (String × SchemaObject)) (acc : OkapiComponents),
      (defs.map Prod.fst).Nodup →
      (((okapiComponentsFold acc defs).isOk = true) ↔
        ∀ n ∈ defs.map Prod.fst, alookup acc.schemas n = none)
  | [], acc, _ => by simp [okapiComponentsFold, Except.isOk, Except.toBool]
  | (n, sch) :: rest, acc, hn => by
    have hn' : (rest.map Prod.fst).Nodup := (List.nodup_cons.mp (by simpa using hn)).2
    have hnotin : n ∉ rest.map Prod.fst := (List.nodup_cons.mp (by simpa using hn)).1
    by_cases hmem : (alookup acc.schemas n).isSome = true
    · simp only [okapiComponentsFold, if_pos hmem]
      simp only [Except.isOk, Except.toBool, List.map_cons, List.mem_cons]
      constructor
      · intro h
        cases h
      · intro h
        obtain ⟨x, hx⟩ := Option.isSome_iff_exists.mp hmem
        have := h n (Or.inl rfl)
        rw [this] at hx
        cases hx
    · simp only [okapiComponentsFold, if_neg hmem]
      rw [okapiComponentsFold_isOk rest _ hn']
      have hnone : alookup acc.schemas n = none := by
        cases hv : alookup acc.schemas n with
        | none => rfl
        | some x => exact absurd (by rw [hv]; rfl) hmem
      constructor
      · intro h n' hn'mem
        rcases List.mem_cons.mp hn'mem with hh | ht
        · rw [hh]
          exact hnone
        · have hne : n' ≠ n := fun hc => hnotin (hc ▸ ht)
          have := h n' (by simpa using ht)
          rwa [btreeInsert_lookup_other acc.schemas n n' sch hne] at this
      · intro h n' hn'mem
        have ht : n' ∈ rest.map Prod.fst := by simpa using hn'mem
        have hne : n' ≠ n := fun hc => hnotin (hc ▸ ht)
        rw [btreeInsert_lookup_other acc.schemas n n' sch hne]
        exact h n' (List.mem_cons_of_mem _ ht)

/-- C9 counterexample: re-registering the name `"k"` with a *different*
security-scheme definition is accepted silently — the second definition
replaces the first — and finalization succeeds without any collision
check on the name. -/
theorem add_security_scheme_silently_replaces :
    ((Components.add_security_scheme
        (Components.add_security_scheme { } "k" "basic") "k" "bearer").components.security_schemes
      = [("k", "bearer")])
    ∧ (Components.add_security_scheme
        (Components.add_security_scheme { } "k" "basic") "k" "bearer").okapi_components
      = .ok { security_schemes := [("k", "bearer")] } := by
  exact ⟨rfl, rfl⟩

/-- C9 amended: `add_security_scheme` never fails and silently replaces an
existing definition under the same name; the only name-collision check at
finalization is between schema-generator definition names and pre-existing
component schema names, and it fires on any shared name regardless of
whether the definitions are identical. -/
theorem components_name_collision_semantics :
    (∀ (c : Components) (n : String) (sec : SecurityScheme),
        alookup ((c.add_security_scheme n sec).components.security_schemes) n = some sec)
    ∧ (∀ c : Components, (c.definitions.map Prod.fst).Nodup →
        (((c.okapi_components).isOk = true) ↔
          ∀ n ∈ c.definitions.map Prod.fst, alookup c.components.schemas n = none)) := by
  constructor
  · intro c n sec
    exact btreeInsert_lookup_self c.components.security_schemes n sec
  · intro c hn
    exact okapiComponentsFold_isOk c.definitions c.components hn

/-- Concrete components: one generator definition named `"T"` and a
pre-set component schema under the same name `"T"` (a differing
definition). -/
def cCollide : Components :=
  { definitions := [("T", "genSchema")], components := { schemas := [("T", "preset")] } }

/-- Witness for C9's amended statement: the lookup-after-replace equation
at concrete inputs, and the finalization-failure criterion applied to a
concrete collision (identical names, different definitions — not OK). -/
theorem components_name_collision_semantics_witness :
    alookup ((Components.add_security_scheme { } "k" "bearer").components.security_schemes) "k"
        = some "bearer"
      ∧ (((cCollide.okapi_components).isOk = true) ↔
          ∀ n ∈ cCollide.definitions.map Prod.fst,
            alookup cCollide.components.schemas n = none) :=
  ⟨components_name_collision_semantics.1 { } "k" "bearer",
    components_name_collision_semantics.2 cCollide (by decide)⟩
